import Mathlib

/-!
Verification of the grid-search + cache subsystem of the
Time-Series-Analysis-Project repository.

The Python sources embedded here:
  * `utils/arima_grid_search.py` — `arima_grid_search(ts, p_range, d_range,
    q_range, max_params, verbose)`: exhaustive ARIMA(p,d,q) search with a
    parameter-count budget, per-candidate failure isolation, and
    strictly-lower-AIC best tracking.
  * `utils/cache_manager.py` — `CacheManager`: a JSON-backed store keyed by
    `file_basename_first8(md5(content))`, with params records and
    images / csv_files artifact sub-maps.

External library calls (statsmodels' model fitting, hashlib's md5, json's
parsing, the clock) are modelled as explicit oracle parameters; everything
else follows the Python control flow line by line.  Machine floats are
modelled as rationals.
-/

set_option autoImplicit false

namespace TSAP

/-! ## Embedding of `utils/arima_grid_search.py` -/

/-- `Path(file_path).name`: the final slash-separated path component. -/
def pathName (s : String) : String :=
  String.mk ((s.data.splitOn '/').getLastD s.data)

/-- Python string slicing `s[:n]`: the first `n` characters. -/
def strTake (s : String) (n : ℕ) : String := String.mk (s.data.take n)

/-- A candidate order `(p, d, q)` from the Cartesian grid. -/
abbrev Candidate := ℕ × ℕ × ℕ

/-- The result of a successful `model.fit()` as the search consumes it: the
`aic` attribute used for ranking, and the handle's 10-step forecast (the
search under `src/` never reads the forecast; it is carried to state the
degeneracy-gate claim). -/
structure FitHandle where
  aic : ℚ
  forecast10 : List ℚ
  deriving DecidableEq, Repr

/-- The fitting oracle: `ARIMA(ts, order=c)` followed by `.fit()`, which
either returns a fitted handle or raises (modelled as `Except.error` with the
exception's message). -/
abbrev Fitter := List ℚ → Candidate → Except String FitHandle

/-- The loop state of `arima_grid_search`: `best_aic` (with `none` standing
for the initial `np.inf`), `best_params`, `best_model`, plus the
instrumentation the proofs need — which candidates a fit was attempted for,
and the recorded per-candidate failures with their truncated messages. -/
structure SearchState where
  bestAic : Option ℚ
  bestParams : Option Candidate
  bestModel : Option FitHandle
  attempted : List Candidate
  failures : List (Candidate × String)
  deriving Repr

/-- `best_aic = np.inf`, `best_params = None`, `best_model = None`. -/
def initState : SearchState :=
  { bestAic := none, bestParams := none, bestModel := none
    attempted := [], failures := [] }

/-- The triple-nested loop order: `p` outer, `d` middle, `q` inner. -/
def candidates (pR dR qR : List ℕ) : List Candidate :=
  pR.flatMap fun p => dR.flatMap fun d => qR.map fun q => (p, d, q)

/-- The skip test of lines 116–120: a candidate is admitted unless
`max_params is not None and total_params > max_params`, where
`total_params = p + q + 1`. -/
def budgetOk (maxParams : Option ℤ) (c : Candidate) : Bool :=
  match maxParams with
  | none => true
  | some m => decide ((c.1 : ℤ) + c.2.2 + 1 ≤ m)

/-- The update test of line 138, `aic < best_aic`, with `best_aic = np.inf`
represented by `none`. -/
def beatsBest (a : ℚ) : Option ℚ → Bool
  | none => true
  | some b => decide (a < b)

/-- One iteration of the innermost loop body (lines 115–148): budget check,
attempted fit, per-candidate exception handler recording the first 50
characters of the message, and the strictly-lower-AIC best update. -/
def searchStep (fit : Fitter) (ts : List ℚ) (maxParams : Option ℤ)
    (st : SearchState) (c : Candidate) : SearchState :=
  if budgetOk maxParams c then
    match fit ts c with
    | Except.error e =>
        { st with attempted := st.attempted ++ [c]
                  failures := st.failures ++ [(c, strTake e 50)] }
    | Except.ok m =>
        if beatsBest m.aic st.bestAic then
          { st with attempted := st.attempted ++ [c]
                    bestAic := some m.aic
                    bestParams := some c
                    bestModel := some m }
        else { st with attempted := st.attempted ++ [c] }
  else st

/-- The whole search loop over the enumerated grid, from the initial state. -/
def searchRun (fit : Fitter) (ts : List ℚ) (pR dR qR : List ℕ)
    (maxParams : Option ℤ) : SearchState :=
  (candidates pR dR qR).foldl (searchStep fit ts maxParams) initState

/-- `arima_grid_search` (lines 90–159): input validation raising
`ValueError` for an absent/empty series and for a non-positive `max_params`,
then the grid loop, returning `(best_params, best_model)`. -/
def arima_grid_search (ts : Option (List ℚ)) (pR dR qR : List ℕ)
    (maxParams : Option ℤ) (fit : Fitter) :
    Except String (Option Candidate × Option FitHandle) :=
  match ts with
  | none => Except.error "时间序列不能为空"
  | some l =>
      if l.length = 0 then Except.error "时间序列不能为空"
      else
        match maxParams with
        | some m =>
            if m ≤ 0 then Except.error "max_params必须大于0"
            else
              let st := searchRun fit l pR dR qR (some m)
              Except.ok (st.bestParams, st.bestModel)
        | none =>
            let st := searchRun fit l pR dR qR none
            Except.ok (st.bestParams, st.bestModel)

/-- The AIC a candidate contributes to best-tracking: `some a` when it is
within budget and its fit succeeds with AIC `a`, `none` when it is skipped or
its fit raises. -/
def admissibleAic (fit : Fitter) (ts : List ℚ) (mp : Option ℤ)
    (c : Candidate) : Option ℚ :=
  if budgetOk mp c then
    match fit ts c with
    | Except.ok m => some m.aic
    | Except.error _ => none
  else none

/-- The loop invariant of `arima_grid_search`, after the candidates in
`processed` have been handled: either there is no best yet and every
processed candidate was skipped or failed, or the best is a processed
in-budget successful fit whose AIC is minimal over all processed candidates
and strictly below every admissible AIC seen before it (first-seen tie
breaking); and the attempted candidates are exactly the in-budget ones. -/
structure Inv (fit : Fitter) (ts : List ℚ) (mp : Option ℤ)
    (processed : List Candidate) (st : SearchState) : Prop where
  none_best : st.bestParams = none →
    st.bestAic = none ∧ st.bestModel = none ∧
      ∀ c ∈ processed, admissibleAic fit ts mp c = none
  some_best : ∀ cB, st.bestParams = some cB →
    ∃ mB, st.bestModel = some mB ∧ st.bestAic = some mB.aic ∧
      budgetOk mp cB = true ∧ fit ts cB = Except.ok mB ∧
      (∃ l₁ l₂, processed = l₁ ++ cB :: l₂ ∧
        ∀ c ∈ l₁, ∀ a, admissibleAic fit ts mp c = some a → mB.aic < a) ∧
      (∀ c ∈ processed, ∀ a, admissibleAic fit ts mp c = some a → mB.aic ≤ a)
  attempted_eq : st.attempted = processed.filter (budgetOk mp)

theorem inv_init (fit : Fitter) (ts : List ℚ) (mp : Option ℤ) :
    Inv fit ts mp [] initState := by
  refine ⟨?_, ?_, ?_⟩
  · intro _; exact ⟨rfl, rfl, by simp⟩
  · intro cB hcB; simp [initState] at hcB
  · rfl

theorem inv_step (fit : Fitter) (ts : List ℚ) (mp : Option ℤ)
    (pr : List Candidate) (st : SearchState) (c : Candidate)
    (h : Inv fit ts mp pr st) :
    Inv fit ts mp (pr ++ [c]) (searchStep fit ts mp st c) := by
  cases hb : budgetOk mp c with
  | false =>
      have hstep : searchStep fit ts mp st c = st := by
        simp [searchStep, hb]
      have hadm : admissibleAic fit ts mp c = none := by
        simp [admissibleAic, hb]
      rw [hstep]
      refine ⟨?_, ?_, ?_⟩
      · intro hnone
        obtain ⟨hA, hM, hall⟩ := h.none_best hnone
        refine ⟨hA, hM, ?_⟩
        intro x hx
        rcases List.mem_append.mp hx with hx | hx
        · exact hall x hx
        · rw [List.mem_singleton.mp hx]; exact hadm
      · intro cB hcB
        obtain ⟨mB, hM, hA, hbud, hfit, ⟨l₁, l₂, hspl, hpre⟩, hglob⟩ :=
          h.some_best cB hcB
        refine ⟨mB, hM, hA, hbud, hfit, ⟨l₁, l₂ ++ [c], ?_, hpre⟩, ?_⟩
        · rw [hspl, List.append_assoc]; rfl
        · intro x hx a ha
          rcases List.mem_append.mp hx with hx | hx
          · exact hglob x hx a ha
          · rw [List.mem_singleton.mp hx] at ha
            rw [hadm] at ha; cases ha
      · rw [h.attempted_eq, List.filter_append]
        simp [hb]
  | true =>
      cases hf : fit ts c with
      | error e =>
          have hstep : searchStep fit ts mp st c =
              { st with attempted := st.attempted ++ [c]
                        failures := st.failures ++ [(c, strTake e 50)] } := by
            simp [searchStep, hb, hf]
          have hadm : admissibleAic fit ts mp c = none := by
            simp [admissibleAic, hb, hf]
          rw [hstep]
          refine ⟨?_, ?_, ?_⟩
          · intro hnone
            simp only at hnone
            obtain ⟨hA, hM, hall⟩ := h.none_best hnone
            refine ⟨hA, hM, ?_⟩
            intro x hx
            rcases List.mem_append.mp hx with hx | hx
            · exact hall x hx
            · rw [List.mem_singleton.mp hx]; exact hadm
          · intro cB hcB
            simp only at hcB
            obtain ⟨mB, hM, hA, hbud, hfit, ⟨l₁, l₂, hspl, hpre⟩, hglob⟩ :=
              h.some_best cB hcB
            refine ⟨mB, hM, hA, hbud, hfit, ⟨l₁, l₂ ++ [c], ?_, hpre⟩, ?_⟩
            · rw [hspl, List.append_assoc]; rfl
            · intro x hx a ha
              rcases List.mem_append.mp hx with hx | hx
              · exact hglob x hx a ha
              · rw [List.mem_singleton.mp hx] at ha
                rw [hadm] at ha; cases ha
          · simp only
            rw [h.attempted_eq, List.filter_append]
            simp [hb]
      | ok m =>
          have hadm : admissibleAic fit ts mp c = some m.aic := by
            simp [admissibleAic, hb, hf]
          cases hbb : beatsBest m.aic st.bestAic with
          | true =>
              have hstep : searchStep fit ts mp st c =
                  { st with attempted := st.attempted ++ [c]
                            bestAic := some m.aic
                            bestParams := some c
                            bestModel := some m } := by
                simp [searchStep, hb, hf, hbb]
              -- Every previously admissible candidate had AIC strictly
              -- above the new best.
              have hpre : ∀ x ∈ pr, ∀ a,
                  admissibleAic fit ts mp x = some a → m.aic < a := by
                intro x hx a ha
                cases hbp : st.bestParams with
                | none =>
                    obtain ⟨hA, hM, hall⟩ := h.none_best hbp
                    rw [hall x hx] at ha; cases ha
                | some cB' =>
                    obtain ⟨mB', hM', hA', hbud', hfit', _, hglob'⟩ :=
                      h.some_best cB' hbp
                    rw [hA'] at hbb
                    have hlt : m.aic < mB'.aic := by
                      simpa [beatsBest] using hbb
                    exact lt_of_lt_of_le hlt (hglob' x hx a ha)
              rw [hstep]
              refine ⟨?_, ?_, ?_⟩
              · intro hnone; simp only at hnone; cases hnone
              · intro cB hcB
                simp only at hcB
                obtain rfl : c = cB := by injection hcB
                refine ⟨m, rfl, rfl, hb, hf, ⟨pr, [], rfl, hpre⟩, ?_⟩
                intro x hx a ha
                rcases List.mem_append.mp hx with hx | hx
                · exact le_of_lt (hpre x hx a ha)
                · rw [List.mem_singleton.mp hx] at ha
                  rw [hadm] at ha
                  obtain rfl : m.aic = a := by injection ha
                  exact le_refl _
              · simp only
                rw [h.attempted_eq, List.filter_append]
                simp [hb]
          | false =>
              have hstep : searchStep fit ts mp st c =
                  { st with attempted := st.attempted ++ [c] } := by
                simp [searchStep, hb, hf, hbb]
              cases hbp : st.bestParams with
              | none =>
                  exfalso
                  obtain ⟨hA, _, _⟩ := h.none_best hbp
                  rw [hA] at hbb
                  simp [beatsBest] at hbb
              | some cB' =>
                  obtain ⟨mB', hM', hA', hbud', hfit',
                      ⟨l₁, l₂, hspl, hpre'⟩, hglob'⟩ := h.some_best cB' hbp
                  have hle : mB'.aic ≤ m.aic := by
                    rw [hA'] at hbb
                    simpa [beatsBest] using hbb
                  rw [hstep]
                  refine ⟨?_, ?_, ?_⟩
                  · intro hnone
                    simp only at hnone
                    rw [hbp] at hnone; cases hnone
                  · intro cB hcB
                    simp only at hcB
                    rw [hbp] at hcB
                    obtain rfl : cB' = cB := by injection hcB
                    refine ⟨mB', hM', hA', hbud', hfit',
                      ⟨l₁, l₂ ++ [c], ?_, hpre'⟩, ?_⟩
                    · rw [hspl, List.append_assoc]; rfl
                    · intro x hx a ha
                      rcases List.mem_append.mp hx with hx | hx
                      · exact hglob' x hx a ha
                      · rw [List.mem_singleton.mp hx] at ha
                        rw [hadm] at ha
                        obtain rfl : m.aic = a := by injection ha
                        exact hle
                  · simp only
                    rw [h.attempted_eq, List.filter_append]
                    simp [hb]

theorem inv_fold (fit : Fitter) (ts : List ℚ) (mp : Option ℤ)
    (l : List Candidate) :
    ∀ (pr : List Candidate) (st : SearchState), Inv fit ts mp pr st →
      Inv fit ts mp (pr ++ l) (l.foldl (searchStep fit ts mp) st) := by
  induction l with
  | nil => intro pr st h; simpa using h
  | cons c l ih =>
      intro pr st h
      have h1 := inv_step fit ts mp pr st c h
      have h2 := ih (pr ++ [c]) _ h1
      simpa [List.append_assoc] using h2

theorem inv_run (fit : Fitter) (ts : List ℚ) (pR dR qR : List ℕ)
    (mp : Option ℤ) :
    Inv fit ts mp (candidates pR dR qR) (searchRun fit ts pR dR qR mp) := by
  have := inv_fold fit ts mp (candidates pR dR qR) [] initState
    (inv_init fit ts mp)
  simpa [searchRun] using this

/-- With a non-empty series and a valid budget, `arima_grid_search` returns
the projection of the loop's final state. -/
theorem grid_search_eq_run (l : List ℚ) (pR dR qR : List ℕ)
    (mp : Option ℤ) (fit : Fitter)
    (hl : l ≠ []) (hmp : ∀ m, mp = some m → 0 < m) :
    arima_grid_search (some l) pR dR qR mp fit =
      Except.ok ((searchRun fit l pR dR qR mp).bestParams,
                 (searchRun fit l pR dR qR mp).bestModel) := by
  have hlen : ¬ l.length = 0 := by
    simpa [List.length_eq_zero] using hl
  cases mp with
  | none => simp [arima_grid_search, hlen]
  | some m =>
      have hm : ¬ m ≤ 0 := not_le.mpr (hmp m rfl)
      simp [arima_grid_search, hlen, hm]

/-- Helper: a normal return determines the final loop state's projections. -/
theorem grid_search_ok_state (l : List ℚ) (pR dR qR : List ℕ)
    (mp : Option ℤ) (fit : Fitter) (r : Option Candidate × Option FitHandle)
    (hres : arima_grid_search (some l) pR dR qR mp fit = Except.ok r) :
    (searchRun fit l pR dR qR mp).bestParams = r.1 ∧
    (searchRun fit l pR dR qR mp).bestModel = r.2 := by
  unfold arima_grid_search at hres
  by_cases hlen : l.length = 0
  · simp [hlen] at hres
  · cases mp with
    | none =>
        simp only [hlen, if_false] at hres
        cases Except.ok.inj hres
        exact ⟨rfl, rfl⟩
    | some m =>
        by_cases hm : m ≤ 0
        · simp [hlen, hm] at hres
        · simp only [hlen, hm, if_false] at hres
          cases Except.ok.inj hres
          exact ⟨rfl, rfl⟩

/-- C2: for every grid search with at least one accepted candidate, the
returned candidate's information criterion is ≤ that of every other
candidate that fit successfully within the searched grid, and ties are
broken first-seen: every admissible successful candidate enumerated before
the winner has a strictly larger criterion value, so a later candidate with
an equal value never replaces the current best. -/
theorem grid_search_best_is_minimal_first_seen
    (l : List ℚ) (pR dR qR : List ℕ) (mp : Option ℤ) (fit : Fitter)
    (cB : Candidate) (mB : FitHandle)
    (hres : arima_grid_search (some l) pR dR qR mp fit =
      Except.ok (some cB, some mB)) :
    budgetOk mp cB = true ∧ fit l cB = Except.ok mB ∧
    (∀ c ∈ candidates pR dR qR, budgetOk mp c = true →
      ∀ m, fit l c = Except.ok m → mB.aic ≤ m.aic) ∧
    (∃ l₁ l₂, candidates pR dR qR = l₁ ++ cB :: l₂ ∧
      ∀ c ∈ l₁, budgetOk mp c = true →
        ∀ m, fit l c = Except.ok m → mB.aic < m.aic) := by
  obtain ⟨hbp, hbm⟩ :=
    grid_search_ok_state l pR dR qR mp fit (some cB, some mB) hres
  have hinv := inv_run fit l pR dR qR mp
  obtain ⟨mB0, hM, hA, hbud, hfitB, ⟨l₁, l₂, hspl, hpre⟩, hglob⟩ :=
    hinv.some_best cB hbp
  obtain rfl : mB0 = mB := by
    rw [hM] at hbm; exact Option.some.inj hbm
  refine ⟨hbud, hfitB, ?_, ⟨l₁, l₂, hspl, ?_⟩⟩
  · intro c hc hb m hm
    exact hglob c hc m.aic (by simp [admissibleAic, hb, hm])
  · intro c hc hb m hm
    exact hpre c hc m.aic (by simp [admissibleAic, hb, hm])

/-- C3: with a finite `max_params` budget, a model fit is attempted for a
tuple `(p, d, q)` of the enumerated grid exactly when `p + q + 1 ≤
max_params`; every candidate actually fitted is within the budget and tuples
exceeding it are never fitted. -/
theorem grid_search_budget_invariant
    (fit : Fitter) (l : List ℚ) (pR dR qR : List ℕ) (m : ℤ) (p d q : ℕ) :
    (p, d, q) ∈ (searchRun fit l pR dR qR (some m)).attempted ↔
      ((p, d, q) ∈ candidates pR dR qR ∧ (p : ℤ) + q + 1 ≤ m) := by
  rw [(inv_run fit l pR dR qR (some m)).attempted_eq, List.mem_filter]
  simp [budgetOk]

/-- C4: for a non-empty training series and a valid budget, if the fitter
raises for every candidate, the grid search returns `(None, None)` as a
normal value instead of raising; each failure is contained per candidate. -/
theorem grid_search_all_fail_returns_absent
    (l : List ℚ) (pR dR qR : List ℕ) (mp : Option ℤ) (fit : Fitter)
    (hl : l ≠ []) (hmp : ∀ m, mp = some m → 0 < m)
    (hfail : ∀ c : Candidate, ∃ e, fit l c = Except.error e) :
    arima_grid_search (some l) pR dR qR mp fit = Except.ok (none, none) := by
  have hinv := inv_run fit l pR dR qR mp
  have hbp : (searchRun fit l pR dR qR mp).bestParams = none := by
    cases hbp : (searchRun fit l pR dR qR mp).bestParams with
    | none => rfl
    | some cB =>
        obtain ⟨mB, _, _, _, hfitB, _, _⟩ := hinv.some_best cB hbp
        obtain ⟨e, he⟩ := hfail cB
        rw [he] at hfitB; cases hfitB
  obtain ⟨_, hM, _⟩ := hinv.none_best hbp
  rw [grid_search_eq_run l pR dR qR mp fit hl hmp, hbp, hM]

theorem grid_search_all_fail_witness :
    arima_grid_search (some [1]) [0, 1] [0] [0, 1] none
      (fun _ _ => Except.error "LU decomposition error") =
      Except.ok (none, none) :=
  grid_search_all_fail_returns_absent [1] [0, 1] [0] [0, 1] none
    (fun _ _ => Except.error "LU decomposition error")
    (by simp) (by intro m hm; cases hm)
    (fun _ => ⟨"LU decomposition error", rfl⟩)

/-- C10: the search raises (a ValueError) exactly when the series is absent
or empty or a supplied `max_params` is not positive; for every other input
it returns a normal value. -/
theorem grid_search_raises_iff
    (ts : Option (List ℚ)) (pR dR qR : List ℕ) (mp : Option ℤ)
    (fit : Fitter) :
    (∃ e, arima_grid_search ts pR dR qR mp fit = Except.error e) ↔
      (ts = none ∨ ts = some [] ∨ ∃ m, mp = some m ∧ m ≤ 0) := by
  cases ts with
  | none => simp [arima_grid_search]
  | some l =>
      by_cases hlen : l.length = 0
      · obtain rfl : l = [] := List.length_eq_zero.mp hlen
        simp [arima_grid_search]
      · have hnil : ¬ l = [] := by simpa [List.length_eq_zero] using hlen
        cases mp with
        | none => simp [arima_grid_search, hlen, hnil]
        | some m =>
            by_cases hm : m ≤ 0
            · simp [arima_grid_search, hlen, hnil, hm]
            · simp [arima_grid_search, hlen, hnil, hm]

/-- The range (max − min) of a short forecast, following the spec's words
for the degeneracy gate; no such computation exists in the code under
`src/`, the definition only serves to state the gate's rejection condition. -/
def specForecastRange (xs : List ℚ) : ℚ :=
  xs.foldl max (xs.headD 0) - xs.foldl min (xs.headD 0)

/-- A fit whose 10-step forecast is exactly constant (range 0, far below
the spec's floor of 1000) but whose AIC is the lowest in the grid. -/
def degenerateFit : FitHandle :=
  { aic := 100, forecast10 := [5, 5, 5, 5, 5, 5, 5, 5, 5, 5] }

/-- A fit with a clearly varying forecast but a larger AIC. -/
def wideFit : FitHandle :=
  { aic := 200
    forecast10 := [0, 2000, 4000, 6000, 8000, 10000, 12000, 14000, 16000, 18000] }

/-- A fitter that succeeds everywhere, giving the flat low-AIC fit to
candidate `(0,0,0)` and the varying higher-AIC fit to every other. -/
def fitDegenerate : Fitter := fun _ c =>
  if c = (0, 0, 0) then Except.ok degenerateFit else Except.ok wideFit

/-- C1 counterexample: the grid search has no degeneracy gate.  A
successfully fitted candidate whose 10-step forecast is near-constant
(range 0 < 1000) and whose criterion is the lowest seen is tracked as best
and returned — the claim says it is excluded and never returned. -/
theorem grid_search_degenerate_best_returned :
    specForecastRange degenerateFit.forecast10 < 1000 ∧
    degenerateFit.aic < wideFit.aic ∧
    arima_grid_search (some [1, 2, 3]) [0, 1] [0] [0, 1] none fitDegenerate =
      Except.ok (some (0, 0, 0), some degenerateFit) := by
  refine ⟨?_, ?_, ?_⟩
  · simp only [specForecastRange, degenerateFit, List.foldl_cons, List.foldl_nil,
      List.headD, List.head?, Option.getD, max_self, min_self]
    norm_num
  · norm_num [degenerateFit, wideFit]
  · rfl

/-- C1 amended: the grid search applies no forecast-degeneracy filter.  An
in-budget candidate that fits successfully and has the strictly lowest
criterion among all admissible successful candidates is returned as the
best candidate even when its 10-step forecast is near-constant (range
below 1000); the forecast never affects best-tracking. -/
theorem grid_search_no_degeneracy_gate
    (l : List ℚ) (pR dR qR : List ℕ) (mp : Option ℤ) (fit : Fitter)
    (c : Candidate) (m : FitHandle)
    (hl : l ≠ []) (hmp : ∀ k, mp = some k → 0 < k)
    (hc : c ∈ candidates pR dR qR) (hb : budgetOk mp c = true)
    (hfit : fit l c = Except.ok m)
    (_hdeg : specForecastRange m.forecast10 < 1000)
    (hmin : ∀ c' ∈ candidates pR dR qR, budgetOk mp c' = true →
      ∀ m', fit l c' = Except.ok m' → c' ≠ c → m.aic < m'.aic) :
    arima_grid_search (some l) pR dR qR mp fit =
      Except.ok (some c, some m) := by
  have hinv := inv_run fit l pR dR qR mp
  have hadm : admissibleAic fit l mp c = some m.aic := by
    simp [admissibleAic, hb, hfit]
  cases hbp : (searchRun fit l pR dR qR mp).bestParams with
  | none =>
      obtain ⟨_, _, hall⟩ := hinv.none_best hbp
      rw [hall c hc] at hadm; cases hadm
  | some cB =>
      obtain ⟨mB, hM, _, hbud, hfitB, ⟨l₁, l₂, hspl, _⟩, hglob⟩ :=
        hinv.some_best cB hbp
      have hle : mB.aic ≤ m.aic := hglob c hc m.aic hadm
      by_cases hcc : cB = c
      · subst hcc
        rw [hfit] at hfitB
        obtain rfl : m = mB := Except.ok.inj hfitB
        rw [grid_search_eq_run l pR dR qR mp fit hl hmp, hbp, hM]
      · exfalso
        have hcBmem : cB ∈ candidates pR dR qR := by rw [hspl]; simp
        exact absurd hle (not_le.mpr (hmin cB hcBmem hbud mB hfitB hcc))

theorem grid_search_no_degeneracy_gate_witness :
    arima_grid_search (some [1, 2, 3]) [0, 1] [0] [0, 1] none fitDegenerate =
      Except.ok (some (0, 0, 0), some degenerateFit) :=
  grid_search_no_degeneracy_gate [1, 2, 3] [0, 1] [0] [0, 1] none
    fitDegenerate (0, 0, 0) degenerateFit
    (by simp) (by intro k hk; cases hk) (by decide) rfl rfl
    (by
      simp only [specForecastRange, degenerateFit, List.foldl_cons, List.foldl_nil,
        List.headD, List.head?, Option.getD, max_self, min_self]
      norm_num)
    (by
      intro c' _ _ m' hm' hne
      rw [show fitDegenerate [1, 2, 3] c' = Except.ok wideFit from
        by unfold fitDegenerate; rw [if_neg hne]] at hm'
      obtain rfl : wideFit = m' := Except.ok.inj hm'
      norm_num [degenerateFit, wideFit])

/-- A fitter for exercising best-tracking: `(0,0,1)` gets the lowest AIC. -/
def fitTwo : Fitter := fun _ c =>
  if c = (0, 0, 1) then Except.ok { aic := 7, forecast10 := [] }
  else Except.ok { aic := 9, forecast10 := [] }

theorem grid_search_best_is_minimal_witness :
    budgetOk (some 5) (0, 0, 1) = true ∧
    fitTwo [1, 2] (0, 0, 1) = Except.ok { aic := 7, forecast10 := [] } ∧
    (∀ c ∈ candidates [0] [0] [0, 1], budgetOk (some 5) c = true →
      ∀ m, fitTwo [1, 2] c = Except.ok m → (7 : ℚ) ≤ m.aic) ∧
    (∃ l₁ l₂, candidates [0] [0] [0, 1] = l₁ ++ (0, 0, 1) :: l₂ ∧
      ∀ c ∈ l₁, budgetOk (some 5) c = true →
        ∀ m, fitTwo [1, 2] c = Except.ok m → (7 : ℚ) < m.aic) :=
  grid_search_best_is_minimal_first_seen [1, 2] [0] [0] [0, 1] (some 5)
    fitTwo (0, 0, 1) { aic := 7, forecast10 := [] } rfl

/-! ## Embedding of `utils/cache_manager.py` -/

/-- An entry of the `images` / `csv_files` sub-maps: path, type label,
description, save timestamp and the existence flag computed at save time. -/
structure ArtifactInfo where
  path : String
  typeLabel : String
  description : String
  timestamp : String
  existsFlag : Bool
  deriving DecidableEq, Repr

/-- A cache record: a Python dict whose keys are all optional — a params
record carries the first seven fields, an artifact-only record only the
sub-maps. -/
structure CacheRecord where
  best_params : Option Candidate := none
  best_aic : Option ℚ := none
  total_params : Option ℕ := none
  data_length : Option ℕ := none
  param_ratio : Option ℚ := none
  timestamp : Option String := none
  data_file : Option String := none
  images : Option (List (String × ArtifactInfo)) := none
  csv_files : Option (List (String × ArtifactInfo)) := none
  deriving DecidableEq, Repr

/-- The empty dict `{}` the artifact savers initialise a record to. -/
def emptyRecord : CacheRecord := {}

/-- Python dict lookup `d.get(k)` on an insertion-ordered dict. -/
def dictGet {α : Type} (d : List (String × α)) (k : String) : Option α :=
  match d with
  | [] => none
  | kv :: rest => if kv.1 = k then some kv.2 else dictGet rest k

/-- Python dict assignment `d[k] = v`: overwrite in place, else append. -/
def dictSet {α : Type} (d : List (String × α)) (k : String) (v : α) :
    List (String × α) :=
  match d with
  | [] => [(k, v)]
  | kv :: rest => if kv.1 = k then (k, v) :: rest else kv :: dictSet rest k v

theorem dictGet_dictSet_same {α : Type} (d : List (String × α))
    (k : String) (v : α) : dictGet (dictSet d k v) k = some v := by
  induction d with
  | nil => simp [dictSet, dictGet]
  | cons kv rest ih =>
      by_cases hk : kv.1 = k
      · simp [dictSet, dictGet, hk]
      · simp [dictSet, dictGet, hk, ih]

/-- The file-system view the cache layer consults: `Path(...).exists()` and
the bytes of opening + reading a file in binary mode (`none` models an
`IOError`). -/
structure FileSys where
  existsF : String → Bool
  readF : String → Option (List ℕ)

/-- `CacheManager._get_file_hash` (lines 133–137): read the file in binary
mode and digest it, `None` on `IOError`; the md5 hex digest itself is the
oracle `md5hex`. -/
def get_file_hash (md5hex : List ℕ → String) (fs : FileSys) (p : String) :
    Option String :=
  match fs.readF p with
  | some content => some (md5hex content)
  | none => none

/-- `CacheManager.get_cache_key` (lines 163–172): `None` for a missing or
unreadable file, else `f"\x7bfile_path.name\x7d_\x7bfile_hash[:8]\x7d"`. -/
def get_cache_key (md5hex : List ℕ → String) (fs : FileSys) (p : String) :
    Option String :=
  if fs.existsF p then
    match get_file_hash md5hex fs p with
    | none => none
    | some h => some (pathName p ++ "_" ++ strTake h 8)
  else none

/-- `CacheManager.get_cached_params` (lines 202–206). -/
def get_cached_params (md5hex : List ℕ → String) (fs : FileSys)
    (cache_data : List (String × CacheRecord)) (p : String) :
    Option CacheRecord :=
  match get_cache_key md5hex fs p with
  | none => none
  | some k => dictGet cache_data k

/-- Python 3 `round` to an integer: round half to even. -/
def pyRoundInt (q : ℚ) : ℤ :=
  if q - ⌊q⌋ < 1/2 then ⌊q⌋
  else if 1/2 < q - ⌊q⌋ then ⌊q⌋ + 1
  else if ⌊q⌋ % 2 = 0 then ⌊q⌋ else ⌊q⌋ + 1

/-- Python `round(x, 2)`. -/
def pyRound2 (q : ℚ) : ℚ := (pyRoundInt (q * 100) : ℚ) / 100

/-- `CacheManager.save_params` (lines 246–263): resolve the key (skipping
the save when none resolves), build the fresh record — with
`param_ratio = round(total_params / data_length * 100, 2)` and the clock's
timestamp — and assign it to the key. -/
def save_params (md5hex : List ℕ → String) (fs : FileSys) (now : String)
    (cache_data : List (String × CacheRecord)) (p : String)
    (best_params : Candidate) (best_aic : ℚ)
    (total_params data_length : ℕ) : List (String × CacheRecord) :=
  match get_cache_key md5hex fs p with
  | none => cache_data
  | some k =>
      dictSet cache_data k
        { best_params := some best_params
          best_aic := some best_aic
          total_params := some total_params
          data_length := some data_length
          param_ratio := some (pyRound2 ((total_params : ℚ) / data_length * 100))
          timestamp := some now
          data_file := some p }

/-- `CacheManager.save_image_cache` (lines 300–324): ensure the record and
its `images` dict exist, then upsert the typed entry, checking the image
path's existence at save time. -/
def save_image_cache (md5hex : List ℕ → String) (fs : FileSys) (now : String)
    (cache_data : List (String × CacheRecord)) (p : String)
    (image_type image_path description : String) :
    List (String × CacheRecord) :=
  match get_cache_key md5hex fs p with
  | none => cache_data
  | some k =>
      let rec0 := (dictGet cache_data k).getD emptyRecord
      let imgs := rec0.images.getD []
      let info : ArtifactInfo :=
        { path := image_path, typeLabel := image_type
          description := description, timestamp := now
          existsFlag := fs.existsF image_path }
      dictSet cache_data k
        { rec0 with images := some (dictSet imgs image_type info) }

/-- `CacheManager.get_image_cache` (lines 353–359):
`self.cache_data.get(cache_key, \x7b\x7d).get('images', \x7b\x7d).get(image_type)`. -/
def get_image_cache (md5hex : List ℕ → String) (fs : FileSys)
    (cache_data : List (String × CacheRecord)) (p : String)
    (image_type : String) : Option ArtifactInfo :=
  match get_cache_key md5hex fs p with
  | none => none
  | some k =>
      let cached := (dictGet cache_data k).getD emptyRecord
      dictGet (cached.images.getD []) image_type

/-- The outcome of a `CacheManager._load_cache` run that did not raise: the
store it produced, whether it created the cache directory (missing-file
branch), and whether it printed the corruption warning (the
JSONDecodeError / IOError handler). -/
structure LoadOutcome where
  cache_data : List (String × CacheRecord)
  madeDir : Bool
  warned : Bool
  deriving DecidableEq, Repr

/-- `CacheManager._load_cache` (lines 79–89).  The file is opened in text
mode with `encoding='utf-8'` and handed to `json.load`; the `except` clause
catches only `(json.JSONDecodeError, IOError)`.  The embedding therefore
distinguishes the three failure kinds that can occur inside the `try`:
an `IOError` while opening/reading (`fileBytes = none`, caught), a
`UnicodeDecodeError` while decoding the bytes (`utf8Decode` returns `none`;
in neither caught class, so it escapes as `Except.error`), and a
`json.JSONDecodeError` on the decoded text (`jsonParse` returns an error,
caught).  `fileExists` is the `self.cache_file.exists()` test. -/
def load_cache (fileExists : Bool) (fileBytes : Option (List ℕ))
    (utf8Decode : List ℕ → Option String)
    (jsonParse : String → Except String (List (String × CacheRecord))) :
    Except String LoadOutcome :=
  if fileExists then
    match fileBytes with
    | none => Except.ok { cache_data := [], madeDir := false, warned := true }
    | some bytes =>
        match utf8Decode bytes with
        | none => Except.error "UnicodeDecodeError"
        | some text =>
            match jsonParse text with
            | Except.ok d =>
                Except.ok { cache_data := d, madeDir := false, warned := false }
            | Except.error _ =>
                Except.ok { cache_data := [], madeDir := false, warned := true }
  else Except.ok { cache_data := [], madeDir := true, warned := false }

/-- The concrete `param_ratio` of the spec's round-trip scenario:
`round(6/184*100, 2) = 3.26`. -/
theorem pyRound2_scenario : pyRound2 ((6 : ℚ) / 184 * 100) = 326 / 100 := by
  have h1 : ((6 : ℚ) / 184 * 100) = 75 / 23 := by norm_num
  have h2 : ⌊(75 / 23 : ℚ) * 100⌋ = 326 := by
    rw [Int.floor_eq_iff]
    constructor <;> norm_num
  rw [h1]
  unfold pyRound2 pyRoundInt
  rw [h2, if_pos (by norm_num)]
  norm_num

/-- C5: once a cache key resolves for `f`, `save_params(f, (2,1,3),
1234.56, 6, 184)` followed by `get_params(f)` returns a record whose
`best_params` is `(2,1,3)` and whose `param_ratio` is
`round(6/184*100, 2) = 3.26`; in general the stored `param_ratio` is
`total_params / data_length × 100` rounded to two decimals. -/
theorem cache_params_round_trip
    (md5hex : List ℕ → String) (fs : FileSys) (now : String)
    (cache_data : List (String × CacheRecord)) (f : String)
    (hkey : get_cache_key md5hex fs f ≠ none) :
    (∃ rec, get_cached_params md5hex fs
        (save_params md5hex fs now cache_data f (2, 1, 3) (123456 / 100) 6 184)
        f = some rec ∧
      rec.best_params = some (2, 1, 3) ∧
      rec.param_ratio = some (326 / 100)) ∧
    (∀ bp aic tp dl, ∃ rec, get_cached_params md5hex fs
        (save_params md5hex fs now cache_data f bp aic tp dl) f = some rec ∧
      rec.best_params = some bp ∧
      rec.param_ratio = some (pyRound2 ((tp : ℚ) / dl * 100))) := by
  obtain ⟨k, hk⟩ := Option.ne_none_iff_exists'.mp hkey
  have key : ∀ (bp : Candidate) (aic : ℚ) (tp dl : ℕ),
      get_cached_params md5hex fs
        (save_params md5hex fs now cache_data f bp aic tp dl) f =
        some { best_params := some bp, best_aic := some aic
               total_params := some tp, data_length := some dl
               param_ratio := some (pyRound2 ((tp : ℚ) / dl * 100))
               timestamp := some now, data_file := some f } := by
    intro bp aic tp dl
    simp only [save_params, get_cached_params, hk]
    exact dictGet_dictSet_same cache_data k _
  constructor
  · refine ⟨_, key (2, 1, 3) (123456 / 100) 6 184, rfl, ?_⟩
    have hc : ((6 : ℕ) : ℚ) / ((184 : ℕ) : ℚ) * 100 = (6 : ℚ) / 184 * 100 := by
      norm_num
    simp only [hc, pyRound2_scenario]
  · intro bp aic tp dl
    exact ⟨_, key bp aic tp dl, rfl, rfl⟩

theorem cache_params_round_trip_witness :
    ∃ rec, get_cached_params (fun _ => "d41d8cd98f00b204e9800998ecf8427e")
        { existsF := fun _ => true, readF := fun _ => some [] }
        (save_params (fun _ => "d41d8cd98f00b204e9800998ecf8427e")
          { existsF := fun _ => true, readF := fun _ => some [] }
          "2024-01-01T00:00:00" [] "data/user_balance_table.csv"
          (2, 1, 3) (123456 / 100) 6 184)
        "data/user_balance_table.csv" = some rec ∧
      rec.best_params = some (2, 1, 3) ∧
      rec.param_ratio = some (326 / 100) :=
  (cache_params_round_trip (fun _ => "d41d8cd98f00b204e9800998ecf8427e")
    { existsF := fun _ => true, readF := fun _ => some [] }
    "2024-01-01T00:00:00" [] "data/user_balance_table.csv"
    (by simp [get_cache_key, get_file_hash])).1

/-- C6: the claim that loading never raises for every byte content is
false of the program.  At the failing input — an existing cache file whose
bytes are not valid UTF-8, decoded here by an oracle reporting a
`UnicodeDecodeError` — `_load_cache` raises to the caller, because the
`except` clause catches only `(json.JSONDecodeError, IOError)`.  The caught
paths behave as the claim says: a missing file initialises an empty store
after creating the cache directory, an unreadable file (IOError) and a
UTF-8 file that `json.load` rejects both fall back to an empty store with a
warning. -/
theorem cache_load_unicode_error_escapes :
    (∀ jsonParse, load_cache true (some [255, 254, 128, 103])
        (fun _ => none) jsonParse = Except.error "UnicodeDecodeError") ∧
    (∀ bytes text, load_cache true (some bytes) (fun _ => some text)
        (fun _ => Except.error "Expecting value: line 1 column 1") =
      Except.ok { cache_data := [], madeDir := false, warned := true }) ∧
    (∀ utf8Decode jsonParse, load_cache true none utf8Decode jsonParse =
      Except.ok { cache_data := [], madeDir := false, warned := true }) ∧
    (∀ fileBytes utf8Decode jsonParse,
      load_cache false fileBytes utf8Decode jsonParse =
        Except.ok { cache_data := [], madeDir := true, warned := false }) := by
  refine ⟨fun _ => rfl, fun _ _ => rfl, fun _ _ => rfl, fun _ _ _ => rfl⟩

/-- C7: for an existing readable file the cache key is the file's basename,
an underscore and the first 8 hex digits of the content hash; for a missing
or unreadable file the key is absent — never an exception — and the cache
operations degrade to a miss (`get` absent, `save` a no-op). -/
theorem cache_key_format_and_degradation
    (md5hex : List ℕ → String) (fs : FileSys) (p now : String)
    (d : List (String × CacheRecord)) (bp : Candidate) (aic : ℚ)
    (tp dl : ℕ) :
    (∀ content, fs.existsF p = true → fs.readF p = some content →
      get_cache_key md5hex fs p =
        some (pathName p ++ "_" ++ strTake (md5hex content) 8)) ∧
    ((fs.existsF p = false ∨ fs.readF p = none) →
      get_cache_key md5hex fs p = none ∧
      get_cached_params md5hex fs d p = none ∧
      save_params md5hex fs now d p bp aic tp dl = d) := by
  constructor
  · intro content hex hread
    simp [get_cache_key, get_file_hash, hex, hread]
  · intro h
    have hkey : get_cache_key md5hex fs p = none := by
      rcases h with h | h
      · simp [get_cache_key, h]
      · simp [get_cache_key, get_file_hash, h]
    exact ⟨hkey, by simp [get_cached_params, hkey],
      by simp [save_params, hkey]⟩

/-- A constant digest oracle for concrete cache scenarios. -/
def md5Const : List ℕ → String := fun _ => "0123456789abcdef0123456789abcdef"

/-- A file system where every path exists and reads one byte. -/
def fsAll : FileSys := { existsF := fun _ => true, readF := fun _ => some [0] }

/-- C9 counterexample: an `images` entry saved before a parameter search is
gone after `save_params` for the same fingerprint — `save_params` assigns a
fresh dict to the cache key, so artifact sub-maps are not preserved, while
the claim says they remain retrievable. -/
theorem cache_save_params_drops_artifacts :
    get_image_cache md5Const fsAll
      (save_image_cache md5Const fsAll "t1" [] "data.csv" "trend"
        "output/images/trend.png" "trend plot") "data.csv" "trend" =
      some { path := "output/images/trend.png", typeLabel := "trend"
             description := "trend plot", timestamp := "t1"
             existsFlag := true } ∧
    get_image_cache md5Const fsAll
      (save_params md5Const fsAll "t2"
        (save_image_cache md5Const fsAll "t1" [] "data.csv" "trend"
          "output/images/trend.png" "trend plot")
        "data.csv" (2, 1, 3) (123456 / 100) 6 184) "data.csv" "trend" =
      none := by
  constructor <;> decide

/-- C9 amended: `save_params` fully replaces the record at the fingerprint's
key — previously saved `images` / `csv_files` entries are dropped, not
merged — while artifacts saved after the params are merged incrementally
into the record, which keeps its params and serves the artifact back. -/
theorem cache_save_params_replaces_record
    (md5hex : List ℕ → String) (fs : FileSys) (now : String)
    (d : List (String × CacheRecord)) (f k : String)
    (bp : Candidate) (aic : ℚ) (tp dl : ℕ)
    (hk : get_cache_key md5hex fs f = some k) :
    (∀ rec, get_cached_params md5hex fs
        (save_params md5hex fs now d f bp aic tp dl) f = some rec →
      rec.images = none ∧ rec.csv_files = none) ∧
    (∀ now2 itype ipath desc,
      get_image_cache md5hex fs
        (save_image_cache md5hex fs now2
          (save_params md5hex fs now d f bp aic tp dl) f itype ipath desc)
        f itype =
        some { path := ipath, typeLabel := itype, description := desc
               timestamp := now2, existsFlag := fs.existsF ipath } ∧
      ∃ rec, get_cached_params md5hex fs
        (save_image_cache md5hex fs now2
          (save_params md5hex fs now d f bp aic tp dl) f itype ipath desc)
        f = some rec ∧ rec.best_params = some bp ∧
        rec.images = some [(itype,
          { path := ipath, typeLabel := itype, description := desc
            timestamp := now2, existsFlag := fs.existsF ipath })]) := by
  have hsave : save_params md5hex fs now d f bp aic tp dl =
      dictSet d k
        { best_params := some bp, best_aic := some aic
          total_params := some tp, data_length := some dl
          param_ratio := some (pyRound2 ((tp : ℚ) / dl * 100))
          timestamp := some now, data_file := some f } := by
    simp [save_params, hk]
  constructor
  · intro rec hrec
    rw [hsave] at hrec
    simp only [get_cached_params, hk, dictGet_dictSet_same,
      Option.some.injEq] at hrec
    rw [← hrec]
    exact ⟨rfl, rfl⟩
  · intro now2 itype ipath desc
    rw [hsave]
    have hd2 := dictGet_dictSet_same d k
      { best_params := some bp, best_aic := some aic
        total_params := some tp, data_length := some dl
        param_ratio := some (pyRound2 ((tp : ℚ) / dl * 100))
        timestamp := some now, data_file := some f }
    have himg : save_image_cache md5hex fs now2
        (dictSet d k
          { best_params := some bp, best_aic := some aic
            total_params := some tp, data_length := some dl
            param_ratio := some (pyRound2 ((tp : ℚ) / dl * 100))
            timestamp := some now, data_file := some f })
        f itype ipath desc =
        dictSet (dictSet d k
          { best_params := some bp, best_aic := some aic
            total_params := some tp, data_length := some dl
            param_ratio := some (pyRound2 ((tp : ℚ) / dl * 100))
            timestamp := some now, data_file := some f }) k
          { best_params := some bp, best_aic := some aic
            total_params := some tp, data_length := some dl
            param_ratio := some (pyRound2 ((tp : ℚ) / dl * 100))
            timestamp := some now, data_file := some f
            images := some [(itype,
              { path := ipath, typeLabel := itype, description := desc
                timestamp := now2, existsFlag := fs.existsF ipath })] } := by
      simp only [save_image_cache, hk, hd2, Option.getD_some]
      rfl
    rw [himg]
    refine ⟨?_, ?_⟩
    · simp only [get_image_cache, hk, dictGet_dictSet_same, Option.getD_some]
      simp [dictGet]
    · exact ⟨_, by
        simp only [get_cached_params, hk]
        exact dictGet_dictSet_same _ k _, rfl, rfl⟩

theorem cache_save_params_replaces_record_witness :
    (∀ rec, get_cached_params md5Const fsAll
        (save_params md5Const fsAll "t2" [] "data.csv" (2, 1, 3)
          (123456 / 100) 6 184) "data.csv" = some rec →
      rec.images = none ∧ rec.csv_files = none) ∧
    (∀ now2 itype ipath desc,
      get_image_cache md5Const fsAll
        (save_image_cache md5Const fsAll now2
          (save_params md5Const fsAll "t2" [] "data.csv" (2, 1, 3)
            (123456 / 100) 6 184) "data.csv" itype ipath desc)
        "data.csv" itype =
        some { path := ipath, typeLabel := itype, description := desc
               timestamp := now2, existsFlag := fsAll.existsF ipath } ∧
      ∃ rec, get_cached_params md5Const fsAll
        (save_image_cache md5Const fsAll now2
          (save_params md5Const fsAll "t2" [] "data.csv" (2, 1, 3)
            (123456 / 100) 6 184) "data.csv" itype ipath desc)
        "data.csv" = some rec ∧ rec.best_params = some (2, 1, 3) ∧
        rec.images = some [(itype,
          { path := ipath, typeLabel := itype, description := desc
            timestamp := now2, existsFlag := fsAll.existsF ipath })]) :=
  cache_save_params_replaces_record md5Const fsAll "t2" [] "data.csv"
    "data.csv_01234567" (2, 1, 3) (123456 / 100) 6 184 (by decide)

end TSAP
